import Mathlib

/-!
# Verification of the private-blockchain star registry core

A shallow embedding of `src/blockchain.js` (the `Blockchain` class): block
sealing, chain append, whole-chain validation, the time-bounded ownership
verification protocol, and the owner-indexed star query.  The `Block` class
itself (`block.js`) is not part of the sources; its three members used by
`blockchain.js` (the constructor, `validate()`, `getBData()`) are modelled
from the specification and are marked as such below.

Design of the embedding:

* JavaScript objects that flow through block bodies are modelled by the
  JSON-value type `JVal`.
* The `crypto-js` SHA256 digest is modelled by a concrete, computable string
  hash; no claim depends on cryptographic properties, only on concrete
  evaluation and on the hash being a fixed function of the serialized block.
* Wall-clock time (`new Date().getTime().toString().slice(0,-3)`, i.e.
  seconds) is passed explicitly as a `now : Nat` parameter.
* `bitcoinjs-message.verify` is an external collaborator and is passed as an
  uninterpreted function parameter `verify`.
* Promises carry no real asynchrony here; resolution is modelled by return
  values.  `resolve x` on the success path becomes `Except.ok x`, `reject e`
  becomes `Except.error e`.  One genuine event-loop fact is modelled
  explicitly: a throw inside `validateChain`'s `async` executor leaves its
  promise (and hence `_addBlock`'s) forever pending, which we model as
  `Option.none` in `_addBlock`'s outcome.
-/

/-- A JSON-like value: the JavaScript objects stored in block bodies
(`\x7bdata: "Genesis Block"\x7d` and `\x7bowner, star\x7d` payloads). -/
inductive JVal : Type where
  | jnull : JVal
  | jstr : String → JVal
  | jnum : Int → JVal
  | jobj : List (String × JVal) → JVal
deriving Repr

mutual

/-- Canonical serialization of a `JVal`, modelling `JSON.stringify` on the
body payloads (fixed field order = insertion order, as in V8). -/
def jvalToString : JVal → String
  | .jnull => "null"
  | .jstr s => "\x22" ++ s ++ "\x22"
  | .jnum n => toString n
  | .jobj fs => "\x7b" ++ jfieldsToString fs ++ "\x7d"

/-- Serialization of a JSON object's field list, comma separated. -/
def jfieldsToString : List (String × JVal) → String
  | [] => ""
  | [(k, v)] => "\x22" ++ k ++ "\x22:" ++ jvalToString v
  | (k, v) :: rest => "\x22" ++ k ++ "\x22:" ++ jvalToString v ++ "," ++ jfieldsToString rest

end

/-- Property lookup on a JSON object (`undefined`, i.e. `none`, when absent
or when the value is not an object), modelling `obj.field`. -/
def jvalField : JVal → String → Option JVal
  | .jobj fs, k => (fs.filter (fun kv => kv.1 == k)).head?.map Prod.snd
  | _, _ => none

/-- String-valued property lookup: `some s` exactly when the field exists
and holds the string `s`.  `jvalStrField v k = some a` models the truth of
the JavaScript strict comparison `v.k === a` for a string `a`. -/
def jvalStrField (v : JVal) (k : String) : Option String :=
  match jvalField v k with
  | some (.jstr s) => some s
  | _ => none

/-- Worker for `splitOnChar`: accumulates the current piece (reversed). -/
def splitOnCharAux (sep : Char) : List Char → List Char → List String
  | [], acc => [String.mk acc.reverse]
  | c :: rest, acc =>
    if c = sep then String.mk acc.reverse :: splitOnCharAux sep rest []
    else splitOnCharAux sep rest (c :: acc)

/-- JavaScript `string.split(sep)` for a one-character separator: the list
of pieces between occurrences of `sep` (empty pieces preserved). -/
def splitOnChar (sep : Char) (s : String) : List String :=
  splitOnCharAux sep s.data []

/-- JavaScript `parseInt` in radix 10: skip leading whitespace, read an
optional sign and then the maximal run of leading decimal digits; `none`
models `NaN` (no digits).  The `0x` hexadecimal autodetection of `parseInt`
is not modelled: the ledger's challenge messages embed decimal timestamps. -/
def parseIntJS (s : String) : Option Int :=
  let cs := s.data.dropWhile Char.isWhitespace
  let (neg, cs2) :=
    match cs with
    | '-' :: rest => (true, rest)
    | '+' :: rest => (false, rest)
    | _ => (false, cs)
  let ds := cs2.takeWhile Char.isDigit
  if ds.isEmpty then none
  else
    let n : Nat := ds.foldl (fun a c => a * 10 + (c.toNat - 48)) 0
    some (if neg then -(n : Int) else (n : Int))

/-- Model of the `crypto-js` SHA256 digest rendered `.toString()`: a
deterministic, computable string digest.  The claims use only that it is a
fixed function of the serialized block, never any cryptographic property. -/
def SHA256 (s : String) : String :=
  toString (s.data.foldl (fun a c => (a * 131 + c.toNat + 7) % (2 ^ 64)) 5381)

/-- A block, with the field names and order of the `Block` class.  `hash`
and `previousBlockHash` are `Option String` (`none` models `null`); `time`
holds the epoch-seconds stamp as a number (the source keeps the string form
of the same seconds value). -/
structure Block where
  hash : Option String
  height : Nat
  body : JVal
  time : Nat
  previousBlockHash : Option String
deriving Repr

/-- Modelled from the spec: the `Block` constructor (`block.js` is not under
`src/`).  A fresh, unsealed block around an opaque, reversibly-encoded body:
`hash` and `previousBlockHash` start at `null`, `height` and `time` at 0.
The hex encoding of the body is lossless, so the body is kept in decoded
form here. -/
def Block.new (data : JVal) : Block :=
  { hash := none, height := 0, body := data, time := 0, previousBlockHash := none }

/-- Rendering of an `Option String` field as in `JSON.stringify`:
`null` or the quoted string. -/
def optStr : Option String → String
  | none => "null"
  | some s => "\x22" ++ s ++ "\x22"

/-- `JSON.stringify(block)`: canonical serialization of a block over all of
its fields in declaration order (the body appears in its encoded string
form, the time stamp in its string form). -/
def jsonStringify (b : Block) : String :=
  "\x7b\x22hash\x22:" ++ optStr b.hash
    ++ ",\x22height\x22:" ++ toString b.height
    ++ ",\x22body\x22:\x22" ++ jvalToString b.body ++ "\x22"
    ++ ",\x22time\x22:\x22" ++ toString b.time ++ "\x22"
    ++ ",\x22previousBlockHash\x22:" ++ optStr b.previousBlockHash ++ "\x7d"

/-- Modelled from the spec: `block.validate()` (`block.js` is not under
`src/`).  Per §3/§4.1, it recomputes the content hash over the block's
current state *excluding* the `hash` field itself and compares it with the
stored hash, resolving `true` exactly on agreement. -/
def Block.validate (b : Block) : Bool :=
  b.hash == some (SHA256 (jsonStringify { b with hash := none }))

/-- Modelled from the spec: `block.getBData()` (`block.js` is not under
`src/`).  Per §4.1/§4.5 it decodes the opaque encoded body back to its
logical structure; bodies produced by the constructor always decode, so the
`DecodeError` case does not arise here. -/
def Block.getBData (b : Block) : Option JVal :=
  some b.body

/-- A validation-error entry pushed by `validateChain`'s `errorLog`.  Each
constructor carries exactly the data interpolated into the corresponding
`new Error(...)` message template: tampering (`Invalid Block #height with
Hash: hash`) and broken linkage (`Block at #height is not Linked to the
Correct Previous Block at #height-1`). -/
inductive ChainErr : Type where
  | tampered (height : Nat) (hash : Option String)
  | brokenLink (height : Nat)
deriving DecidableEq, Repr

/-- One iteration of `validateChain`'s `for (let block of self.chain)` loop
body: the errors it pushes for `b`.  When `block.validate()` holds and the
height-based predecessor lookup `self.chain.filter(b => b.height ===
block.height - 1)[0]` comes back `undefined`, reading `.hash` of it throws a
`TypeError`, modelled by `Except.error ()`. -/
def checkOne (chain : List Block) (b : Block) : Except Unit (List ChainErr) :=
  if b.validate then
    if b.height > 0 then
      match (chain.filter (fun p => p.height == b.height - 1)).head? with
      | none => .error ()
      | some previousBlock =>
        .ok (if b.previousBlockHash ≠ previousBlock.hash then [.brokenLink b.height] else [])
    else .ok []
  else .ok [.tampered b.height b.hash]

/-- The whole loop of `validateChain` over a suffix of the chain, collecting
the pushed errors in order; a thrown `TypeError` aborts the loop. -/
def validateChainLoop (chain : List Block) : List Block → Except Unit (List ChainErr)
  | [] => .ok []
  | b :: rest => do
    let e ← checkOne chain b
    let es ← validateChainLoop chain rest
    return e ++ es

/-- `validateChain()`: runs the loop over the whole chain and then resolves
`errorLog.length > 0 ? resolve(errorLog) : resolve(null)` — so a valid chain
resolves with `null` (`none`), not with an empty list.  `Except.error ()`
models the executor throwing, which leaves the promise forever pending. -/
def validateChain (chain : List Block) : Except Unit (Option (List ChainErr)) :=
  match validateChainLoop chain chain with
  | .error e => .error e
  | .ok errorLog => .ok (if errorLog.length > 0 then some errorLog else none)

/-- The `Blockchain` state: the `chain` array and the denormalized `height`
field (initialized to `-1`, hence an `Int`). -/
structure Blockchain where
  chain : List Block
  height : Int
deriving Repr

/-- Lines 66–71 of `_addBlock`: stamp `height` with `self.chain.length` and
`time` with the current seconds, point `previousBlockHash` at the current
tail's hash when the chain is non-empty (`self.chain[self.chain.length -
1].hash`), then seal `block.hash = SHA256(JSON.stringify(block))` — the
serialization taken over the block's state at that moment, whose `hash`
field still holds its pre-seal value. -/
def sealBlock (now : Nat) (s : Blockchain) (block : Block) : Block :=
  let b2 : Block :=
    { hash := block.hash
      height := s.chain.length
      body := block.body
      time := now
      previousBlockHash :=
        match s.chain.getLast? with
        | some last => last.hash
        | none => block.previousBlockHash }
  { b2 with hash := some (SHA256 (jsonStringify b2)) }

/-- `_addBlock(block)`: seal the block, push it, refresh `self.height`, then
re-run `validateChain()`.  Because `validateChain` *resolves* with its error
log (or `null`) rather than rejecting, the `.then(() => resolve(block))`
branch fires whether or not errors were found, and the `.catch(() =>
reject("Invalid Chain. Cannot Add this Block."))` branch is unreachable; a
`TypeError` thrown inside `validateChain` leaves the promise pending
(outcome `none`).  The mutation of the chain happens in every case. -/
def _addBlock (now : Nat) (s : Blockchain) (block : Block) :
    Blockchain × Option (Except String Block) :=
  let sealed := sealBlock now s block
  let chain2 := s.chain ++ [sealed]
  let s2 : Blockchain := { chain := chain2, height := (chain2.length : Int) - 1 }
  match validateChain chain2 with
  | .ok _ => (s2, some (.ok sealed))
  | .error _ => (s2, none)

/-- `initializeChain()`: append the genesis block, with body
`\x7bdata: "Genesis Block"\x7d`, only when the chain is empty (`height === -1`). -/
def initializeChain (now : Nat) (s : Blockchain) : Blockchain :=
  if s.height = -1 then
    (_addBlock now s (Block.new (.jobj [("data", .jstr "Genesis Block")]))).1
  else s

/-- The `Blockchain` constructor: empty chain, `height = -1`, then
`initializeChain()`. -/
def Blockchain.new (now : Nat) : Blockchain :=
  initializeChain now { chain := [], height := -1 }

/-- `getBlockByHeight(height)`:
`self.chain.filter(b => b.height === height)[0]`, resolving with the block
when found and with `null` (`none`) otherwise. -/
def getBlockByHeight (chain : List Block) (height : Nat) : Option Block :=
  (chain.filter (fun b => b.height == height)).head?

/-- `getStarsByWalletAddress(address)`: walk the chain in array order,
decode each body with `getBData()`, and push the *decoded body itself*
(`stars.push(blockBody)`) whenever `blockBody.owner === address`; a falsy
decoded body is skipped. -/
def getStarsByWalletAddress (chain : List Block) (address : String) : List JVal :=
  chain.foldl
    (fun stars b =>
      match b.getBData with
      | none => stars
      | some blockBody =>
        if jvalStrField blockBody "owner" = some address then stars ++ [blockBody]
        else stars)
    []

/-- `submitStar(address, message, signature, star)`: read the embedded
timestamp `parseInt(message.split(":")[1])`, and when `currentTime -
messageTime < 300` (a comparison against `NaN` is false, hence the `none`
branch rejects as expired) check the signature with the external verifier;
on success build the `\x7bowner, star\x7d` block and hand it to `_addBlock`
— without awaiting it — resolving with the (by observation time, sealed)
block.  The two rejection messages are the source's literal strings. -/
def submitStar (now : Nat) (s : Blockchain) (address message signature : String)
    (star : JVal) (verify : String → String → String → Bool) :
    Blockchain × Except String Block :=
  match ((splitOnChar ':' message)[1]?).bind parseIntJS with
  | some messageTime =>
    if (now : Int) - messageTime < 300 then
      if verify message address signature then
        let block := Block.new (.jobj [("owner", .jstr address), ("star", star)])
        ((_addBlock now s block).1, .ok (sealBlock now s block))
      else (s, .error "The Message is not Verified")
    else
      (s, .error "Please submit a star within 5 minutes of the signature ownership verification.")
  | none =>
    (s, .error "Please submit a star within 5 minutes of the signature ownership verification.")

/-- `requestMessageOwnershipVerification(address)`: the signable challenge
`"<address>:<nowSeconds>:starRegistry"`. -/
def requestMessageOwnershipVerification (now : Nat) (address : String) : String :=
  address ++ ":" ++ toString now ++ ":starRegistry"

set_option maxRecDepth 100000

/-! ## Specification-side definitions

These follow the wording of the specification (and, for the corrected
claims, the amended wording), to be compared with the implementation
functions above. -/

/-- Heights are positional: the block stored at index `i` carries
`height = i`. -/
def heightsIndexed (chain : List Block) : Prop :=
  ∀ i < chain.length, chain[i]?.map Block.height = some i

/-- The linkage invariant: every block after the first points at its
predecessor's stored hash. -/
def chainLinked (chain : List Block) : Prop :=
  ∀ i, i + 1 < chain.length →
    chain[i+1]?.map Block.previousBlockHash = chain[i]?.map Block.hash

/-- Every stored block passes its own hash re-check. -/
def allBlocksValid (chain : List Block) : Prop :=
  ∀ b ∈ chain, b.validate = true

/-- The well-formedness invariant of a `Blockchain` state: positional
heights, intact linkage, hash-valid blocks, and the denormalized `height`
field in sync with the array length. -/
structure ChainWF (s : Blockchain) : Prop where
  idx : heightsIndexed s.chain
  link : chainLinked s.chain
  valid : allBlocksValid s.chain
  ht : s.height = (s.chain.length : Int) - 1

/-- The states reachable from construction using only the mutating
operations: the constructor, `_addBlock` on a freshly constructed block, and
`submitStar`. -/
inductive Reachable : Blockchain → Prop where
  | init (now : Nat) : Reachable (Blockchain.new now)
  | add (now : Nat) (data : JVal) {s : Blockchain} (hs : Reachable s) :
      Reachable (_addBlock now s (Block.new data)).1
  | submit (now : Nat) (address message signature : String) (star : JVal)
      (verify : String → String → String → Bool) {s : Blockchain} (hs : Reachable s) :
      Reachable (submitStar now s address message signature star verify).1

/-- Per-index diagnostics of the validation engine, following the (amended)
specification wording: a block failing its hash re-check contributes exactly
one tampering entry (its link is then not examined); a hash-valid,
non-genesis block whose `previousBlockHash` differs from its predecessor's
stored hash contributes one broken-link entry. -/
def diagIdx (chain : List Block) (i : Nat) : List ChainErr :=
  match chain[i]? with
  | none => []
  | some b =>
    if b.validate then
      if i = 0 then []
      else
        match chain[i-1]? with
        | none => []
        | some p => if b.previousBlockHash ≠ p.hash then [.brokenLink b.height] else []
    else [.tampered b.height b.hash]

/-- All diagnostics of a chain, collected across every block in height
order in a single pass. -/
def diagsSpec (chain : List Block) : List ChainErr :=
  ((List.range chain.length).map (diagIdx chain)).flatten

/-- Amended query description: the decoded body of every block whose
decoded `owner` equals the queried address, in chain order. -/
def getStarsBodiesSpec (chain : List Block) (address : String) : List JVal :=
  chain.filterMap (fun b =>
    match b.getBData with
    | none => none
    | some blockBody =>
      if jvalStrField blockBody "owner" = some address then some blockBody else none)

/-- The query as the original claim states it: the `star` *field* of every
block whose decoded `owner` equals the queried address, in chain order. -/
def getStarsClaim (chain : List Block) (address : String) : List JVal :=
  chain.filterMap (fun b =>
    match b.getBData with
    | none => none
    | some blockBody =>
      if jvalStrField blockBody "owner" = some address then jvalField blockBody "star"
      else none)

/-! ## Concrete test articles -/

/-- The genesis marker payload. -/
def genesisBody : JVal := .jobj [("data", .jstr "Genesis Block")]

/-- The genesis block sealed at construction time 5. -/
def g5 : Block := sealBlock 5 { chain := [], height := -1 } (Block.new genesisBody)

/-- A block that is simultaneously tampered (stored hash `"bogus"` differs
from its recomputed hash) and mis-linked (`previousBlockHash = "wrong"`
differs from the genesis block's stored hash). -/
def badBlock : Block :=
  { hash := some "bogus", height := 1,
    body := .jobj [("owner", .jstr "A"), ("star", .jstr "S")],
    time := 7, previousBlockHash := some "wrong" }

/-- A two-block chain whose second block is both tampered and mis-linked. -/
def badChain : List Block := [g5, badBlock]

/-- The genesis block with its stored hash overwritten: externally tampered
state used to exercise the post-append validation failure path. -/
def tamperedGenesis : Block := { g5 with hash := some "0" }

/-- A blockchain state holding only the tampered genesis block. -/
def tamperedState : Blockchain := { chain := [tamperedGenesis], height := 0 }

/-- A fresh (unsealed) star block as `submitStar` constructs it. -/
def starBlockFresh : Block := Block.new (.jobj [("owner", .jstr "A"), ("star", .jstr "S")])

/-! ## Helper lemmas -/

/-- On a list whose block at index `j` has height `k + j`, the height-based
linear search `filter (height == i)` finds exactly the block stored at index
`i - k` (and nothing when `i` is out of range). -/
theorem filter_height_head (l : List Block) (k i : Nat)
    (hk : ∀ j < l.length, l[j]?.map Block.height = some (k + j))
    (hki : k ≤ i) :
    (l.filter (fun p => p.height == i)).head? = l[i - k]? := by
  induction l generalizing k with
  | nil => simp
  | cons b t ih =>
    have hb : b.height = k := by
      have h0 := hk 0 (by simp)
      simpa using h0
    by_cases hik : i = k
    · subst hik
      simp [List.filter_cons, hb, Nat.sub_self]
    · have hbf : (b.height == i) = false := by
        simp [hb]
        omega
      have hk2 : ∀ j < t.length, t[j]?.map Block.height = some (k + 1 + j) := by
        intro j hj
        have h2 := hk (j + 1) (by simpa using Nat.succ_lt_succ hj)
        rw [List.getElem?_cons_succ] at h2
        rw [h2]
        congr 1
        omega
      have hstep : i - k = (i - (k + 1)) + 1 := by omega
      rw [List.filter_cons]
      simp only [hbf, Bool.false_eq_true, if_false]
      rw [ih (k + 1) hk2 (by omega), hstep, List.getElem?_cons_succ]

/-- On a height-indexed chain, one iteration of the validation loop on the
block stored at index `i` produces exactly the specified diagnostics for
index `i` (and in particular never throws). -/
theorem checkOne_eq_diagIdx (chain : List Block) (hh : heightsIndexed chain)
    (i : Nat) (hi : i < chain.length) :
    checkOne chain chain[i] = .ok (diagIdx chain i) := by
  have hbh : chain[i].height = i := by
    have h0 := hh i hi
    rw [List.getElem?_eq_getElem hi] at h0
    simpa using h0
  unfold checkOne diagIdx
  rw [List.getElem?_eq_getElem hi]
  by_cases hv : chain[i].validate
  · simp only [hv, if_true]
    by_cases hi0 : i = 0
    · subst hi0
      simp [hbh]
    · rw [hbh]
      have hpos : i > 0 := by omega
      rw [if_pos hpos, if_neg hi0]
      have hk : ∀ j < chain.length, chain[j]?.map Block.height = some (0 + j) := by
        intro j hj
        simpa using hh j hj
      have hf := filter_height_head chain 0 (i - 1) hk (Nat.zero_le _)
      rw [Nat.sub_zero] at hf
      rw [hf]
      have hi1 : i - 1 < chain.length := by omega
      rw [List.getElem?_eq_getElem hi1]
  · simp [hv]

/-- On a height-indexed chain, the validation loop over the suffix starting
at index `j` collects exactly the specified diagnostics of indices
`j, j+1, …` in order, and never throws. -/
theorem validateChainLoop_drop (chain : List Block) (hh : heightsIndexed chain) :
    ∀ m j, chain.length - j = m →
      validateChainLoop chain (chain.drop j)
        = .ok (((List.range' j m).map (diagIdx chain)).flatten) := by
  intro m
  induction m with
  | zero =>
    intro j hj
    have hle : chain.length ≤ j := by omega
    rw [List.drop_eq_nil_of_le hle]
    simp [validateChainLoop]
  | succ m ih =>
    intro j hj
    have hjlt : j < chain.length := by omega
    rw [List.drop_eq_getElem_cons hjlt]
    rw [validateChainLoop]
    rw [checkOne_eq_diagIdx chain hh j hjlt]
    rw [ih (j + 1) (by omega)]
    rw [List.range'_succ j m 1]
    rfl

/-- On a height-indexed chain, `validateChain` resolves with all specified
diagnostics — `null` when there are none, the full list otherwise. -/
theorem validateChain_eq_diags (chain : List Block) (hh : heightsIndexed chain) :
    validateChain chain
      = .ok (if diagsSpec chain = [] then none else some (diagsSpec chain)) := by
  unfold validateChain
  have h := validateChainLoop_drop chain hh chain.length 0 (by omega)
  rw [List.drop_zero] at h
  rw [h]
  have hr : ((List.range' 0 chain.length).map (diagIdx chain)).flatten = diagsSpec chain := by
    rw [diagsSpec, List.range_eq_range']
  rw [hr]
  rcases hd : diagsSpec chain with _ | ⟨e, es⟩ <;> simp

/-- A well-formed chain produces no diagnostics. -/
theorem diagsSpec_eq_nil_of_wf (chain : List Block)
    (hl : chainLinked chain) (hv : allBlocksValid chain) : diagsSpec chain = [] := by
  unfold diagsSpec
  rw [List.flatten_eq_nil_iff]
  intro l hml
  rw [List.mem_map] at hml
  obtain ⟨i, hi, rfl⟩ := hml
  rw [List.mem_range] at hi
  unfold diagIdx
  rw [List.getElem?_eq_getElem hi]
  have hval : chain[i].validate = true := hv _ (chain.getElem_mem hi)
  simp only [hval, if_true]
  by_cases hi0 : i = 0
  · simp [hi0]
  · rw [if_neg hi0]
    have hi1 : i - 1 < chain.length := by omega
    rw [List.getElem?_eq_getElem hi1]
    have hlk := hl (i - 1) (by omega)
    rw [show i - 1 + 1 = i by omega] at hlk
    rw [List.getElem?_eq_getElem hi, List.getElem?_eq_getElem hi1] at hlk
    simp at hlk
    simp [hlk]

/-- Well-formed chains validate cleanly: the engine resolves `null`. -/
theorem validateChain_ok_none_of_wf (chain : List Block) (hh : heightsIndexed chain)
    (hl : chainLinked chain) (hv : allBlocksValid chain) :
    validateChain chain = .ok none := by
  rw [validateChain_eq_diags chain hh, diagsSpec_eq_nil_of_wf chain hl hv]
  simp

/-- The sealed block's height stamp is the pre-push array length. -/
theorem sealBlock_height (now : Nat) (s : Blockchain) (block : Block) :
    (sealBlock now s block).height = s.chain.length := rfl

/-- The sealed block's predecessor pointer: the tail's stored hash when the
chain is non-empty, the block's own prior value (genesis: `null`) otherwise. -/
theorem sealBlock_previousBlockHash (now : Nat) (s : Blockchain) (block : Block) :
    (sealBlock now s block).previousBlockHash
      = match s.chain.getLast? with
        | some last => last.hash
        | none => block.previousBlockHash := rfl

/-- A block sealed from a fresh (`hash = null`) block passes its own hash
re-check: the seal-time serialization had `hash` still at `null`, which is
exactly the state `validate` recomputes over. -/
theorem sealBlock_validate (now : Nat) (s : Blockchain) (block : Block)
    (hb : block.hash = none) : (sealBlock now s block).validate = true := by
  cases block with
  | mk h hgt bd t p =>
    cases hb
    simp [sealBlock, Block.validate]

/-- The chain after `_addBlock` is always the old chain with the sealed
block pushed, and the `height` field is refreshed to the new length minus
one — whether or not the re-validation found errors. -/
theorem _addBlock_fst (now : Nat) (s : Blockchain) (block : Block) :
    (_addBlock now s block).1
      = { chain := s.chain ++ [sealBlock now s block],
          height := ((s.chain ++ [sealBlock now s block]).length : Int) - 1 } := by
  unfold _addBlock
  cases h : validateChain (s.chain ++ [sealBlock now s block]) <;> simp [h]

/-- Appending through `_addBlock` preserves the well-formedness invariant,
for any fresh (`hash = null`) input block. -/
theorem ChainWF_addBlock (now : Nat) {s : Blockchain} {block : Block}
    (hb : block.hash = none) (hwf : ChainWF s) : ChainWF (_addBlock now s block).1 := by
  rw [_addBlock_fst]
  constructor
  · intro i hi
    simp only [List.length_append, List.length_singleton] at hi
    by_cases hlt : i < s.chain.length
    · rw [List.getElem?_append_left hlt]
      exact hwf.idx i hlt
    · have hieq : i = s.chain.length := by omega
      subst hieq
      rw [List.getElem?_append_right (le_refl _), Nat.sub_self]
      simp [sealBlock_height]
  · intro i hi
    simp only [List.length_append, List.length_singleton] at hi
    by_cases hlt : i + 1 < s.chain.length
    · rw [List.getElem?_append_left hlt, List.getElem?_append_left (by omega)]
      exact hwf.link i hlt
    · have hieq : i + 1 = s.chain.length := by omega
      have hi2 : i < s.chain.length := by omega
      rw [hieq, List.getElem?_append_right (le_refl _), Nat.sub_self,
        List.getElem?_append_left hi2]
      rw [List.getElem?_eq_getElem hi2]
      simp only [List.getElem?_cons_zero, Option.map_some']
      rw [sealBlock_previousBlockHash]
      have hgl : s.chain.getLast? = some s.chain[i] := by
        rw [List.getLast?_eq_getElem?]
        rw [show s.chain.length - 1 = i by omega]
        exact List.getElem?_eq_getElem hi2
      rw [hgl]
  · intro b hbmem
    rw [List.mem_append] at hbmem
    rcases hbmem with h | h
    · exact hwf.valid b h
    · rw [List.mem_singleton] at h
      subst h
      exact sealBlock_validate now s block hb
  · simp

/-- The well-formedness invariant holds of the pre-genesis empty state. -/
theorem ChainWF_empty : ChainWF { chain := [], height := -1 } := by
  constructor
  · intro i hi
    simp at hi
  · intro i hi
    simp at hi
  · intro b hb
    simp at hb
  · simp

/-- The constructor is exactly one `_addBlock` of the genesis marker block
on the empty state. -/
theorem Blockchain_new_eq (now : Nat) :
    Blockchain.new now
      = (_addBlock now { chain := [], height := -1 }
          (Block.new (.jobj [("data", .jstr "Genesis Block")]))).1 := by
  unfold Blockchain.new initializeChain
  rw [if_pos rfl]

/-- Every reachable state is well-formed: positional heights, intact
linkage, hash-valid blocks, synchronized `height` field. -/
theorem ChainWF_of_reachable {s : Blockchain} (hs : Reachable s) : ChainWF s := by
  induction hs with
  | init now =>
    rw [Blockchain_new_eq]
    exact ChainWF_addBlock now rfl ChainWF_empty
  | add now data hs ih =>
    exact ChainWF_addBlock now rfl ih
  | submit now address message signature star verify hs ih =>
    unfold submitStar
    cases hp : ((splitOnChar ':' message)[1]?).bind parseIntJS with
    | none => exact ih
    | some t =>
      by_cases h1 : (now : Int) - t < 300
      · by_cases h2 : verify message address signature
        · simp only [h1, if_true, h2]
          exact ChainWF_addBlock now rfl ih
        · simp only [h1, if_true, h2, if_false]
          exact ih
      · simp only [h1, if_false]
        exact ih

/-- The accumulator-passing form of the star query: the pushes of the walk
append the matching decoded bodies, in chain order, after the accumulator. -/
theorem getStars_foldl (address : String) (chain : List Block) (acc : List JVal) :
    chain.foldl
      (fun stars b =>
        match b.getBData with
        | none => stars
        | some blockBody =>
          if jvalStrField blockBody "owner" = some address then stars ++ [blockBody]
          else stars)
      acc
    = acc ++ getStarsBodiesSpec chain address := by
  induction chain generalizing acc with
  | nil => simp [getStarsBodiesSpec]
  | cons b t ih =>
    rw [List.foldl_cons]
    by_cases hm : jvalStrField b.body "owner" = some address
    · rw [show (match b.getBData with
          | none => acc
          | some blockBody =>
            if jvalStrField blockBody "owner" = some address then acc ++ [blockBody]
            else acc) = acc ++ [b.body] by simp [Block.getBData, hm]]
      rw [ih]
      simp [getStarsBodiesSpec, Block.getBData, hm]
    · rw [show (match b.getBData with
          | none => acc
          | some blockBody =>
            if jvalStrField blockBody "owner" = some address then acc ++ [blockBody]
            else acc) = acc by simp [Block.getBData, hm]]
      rw [ih]
      simp [getStarsBodiesSpec, Block.getBData, hm]

/-- Unfolding of `submitStar` once the embedded timestamp parses: the
freshness test, then the signature check, then append-and-resolve. -/
theorem submitStar_parsed (now : Nat) (s : Blockchain)
    (address message signature : String) (star : JVal)
    (verify : String → String → String → Bool) (t : Int)
    (ht : ((splitOnChar ':' message)[1]?).bind parseIntJS = some t) :
    submitStar now s address message signature star verify
      = if (now : Int) - t < 300 then
          if verify message address signature then
            ((_addBlock now s (Block.new (.jobj [("owner", .jstr address), ("star", star)]))).1,
             .ok (sealBlock now s (Block.new (.jobj [("owner", .jstr address), ("star", star)]))))
          else (s, .error "The Message is not Verified")
        else
          (s, .error "Please submit a star within 5 minutes of the signature ownership verification.") := by
  unfold submitStar
  rw [ht]

/-- Unfolding of `submitStar` when the embedded timestamp does not parse:
the `NaN` comparison is false, so the expiry rejection fires directly. -/
theorem submitStar_unparsed (now : Nat) (s : Blockchain)
    (address message signature : String) (star : JVal)
    (verify : String → String → String → Bool)
    (hp : ((splitOnChar ':' message)[1]?).bind parseIntJS = none) :
    submitStar now s address message signature star verify
      = (s, .error "Please submit a star within 5 minutes of the signature ownership verification.") := by
  unfold submitStar
  rw [hp]

/-! ## Claim theorems -/

/-- C1: the claim says that when the post-append `validateChain` run inside
`_addBlock` reports errors, the append is rolled back and an
`InvalidChainError` rejection is surfaced.  The code does neither: appending
a fresh block to a state whose genesis hash was overwritten to `"0"` leaves
the chain containing the new block and resolves with it, even though the
very `validateChain` run at the end of that `_addBlock` reports a tampering
error — the `.catch` rejection of `_addBlock` is dead code, because
`validateChain` resolves (rather than rejects) its error log. -/
theorem addBlock_resolves_despite_invalid_chain :
    tamperedState.chain.length = 1
    ∧ (_addBlock 6 tamperedState starBlockFresh).1.chain
        = [tamperedGenesis, sealBlock 6 tamperedState starBlockFresh]
    ∧ (_addBlock 6 tamperedState starBlockFresh).2
        = some (.ok (sealBlock 6 tamperedState starBlockFresh))
    ∧ validateChain ((_addBlock 6 tamperedState starBlockFresh).1.chain)
        = .ok (some [ChainErr.tampered 0 (some "0")]) :=
  ⟨rfl, rfl, rfl, rfl⟩

/-- C2 counterexample: `badBlock` is simultaneously tampered (its stored
hash fails the re-check) and mis-linked (its `previousBlockHash` differs
from the genesis block's stored hash), yet `validateChain` emits only the
single tampering error for it — no broken-link error — because the link
check is nested under a passing `block.validate()`.  This refutes the
claim that such a block contributes both errors. -/
theorem validateChain_single_error_on_double_fault :
    Block.validate badBlock = false
    ∧ badBlock.height = 1
    ∧ g5.height = 0
    ∧ badBlock.previousBlockHash ≠ g5.hash
    ∧ validateChain badChain = .ok (some [ChainErr.tampered 1 (some "bogus")])
    ∧ ChainErr.brokenLink 1 ∉ [ChainErr.tampered 1 (some "bogus")] :=
  ⟨rfl, rfl, rfl, by decide, rfl, by decide⟩

/-- C2 as amended: on a height-indexed chain, `validateChain` makes a single
pass that collects, across every block and in chain order, one tampering
entry per block failing its hash re-check and one broken-link entry per
hash-valid non-genesis block whose `previousBlockHash` disagrees with its
predecessor's stored hash; a tampered block's link is not examined, so it
contributes only the tampering entry. -/
theorem validateChain_per_block_diagnostics (chain : List Block)
    (hh : heightsIndexed chain) :
    validateChain chain
      = .ok (if diagsSpec chain = [] then none else some (diagsSpec chain)) :=
  validateChain_eq_diags chain hh

/-- Witness for C2 (amended) at the concrete two-block faulty chain. -/
theorem validateChain_per_block_diagnostics_witness :
    validateChain badChain
      = .ok (if diagsSpec badChain = [] then none else some (diagsSpec badChain)) :=
  validateChain_per_block_diagnostics badChain (by unfold heightsIndexed; decide)

/-- C3 counterexample: on a chain with no violations (the freshly
constructed one-block chain: all blocks hash-valid, linkage trivially
intact), `validateChain` resolves with `null` (`none`) — not with the empty
error sequence — refuting the claim that a violation-free chain yields the
empty sequence. -/
theorem validateChain_null_on_error_free_chain :
    allBlocksValid (Blockchain.new 5).chain
    ∧ chainLinked (Blockchain.new 5).chain
    ∧ validateChain (Blockchain.new 5).chain = .ok none
    ∧ (Except.ok none : Except Unit (Option (List ChainErr))) ≠ .ok (some []) := by
  refine ⟨by unfold allBlocksValid; decide, ?_, rfl, by simp⟩
  intro i hi
  have h1 : (Blockchain.new 5).chain.length = 1 := rfl
  omega

/-- C3 as amended: `validateChain` resolves `null` (not an empty sequence)
on every violation-free chain, and whenever it resolves with a sequence of
errors that sequence is non-empty. -/
theorem validateChain_null_iff_clean :
    (∀ chain : List Block, heightsIndexed chain → chainLinked chain →
        allBlocksValid chain → validateChain chain = .ok none)
    ∧ (∀ (chain : List Block) (l : List ChainErr),
        validateChain chain = .ok (some l) → l ≠ []) := by
  constructor
  · exact fun chain hh hl hv => validateChain_ok_none_of_wf chain hh hl hv
  · intro chain l h
    unfold validateChain at h
    cases hr : validateChainLoop chain chain with
    | error e =>
      simp [hr] at h
    | ok errs =>
      simp only [hr] at h
      by_cases he : errs.length > 0
      · rw [if_pos he] at h
        have hel : errs = l := by
          injection h with h2
          injection h2
        subst hel
        intro hnil
        subst hnil
        simp at he
      · rw [if_neg he] at h
        simp at h

/-- Witness for C3 (amended) at the freshly constructed chain. -/
theorem validateChain_null_iff_clean_witness :
    validateChain (Blockchain.new 3).chain = .ok none :=
  validateChain_null_iff_clean.1 (Blockchain.new 3).chain
    (by unfold heightsIndexed; decide)
    (by
      intro i hi
      have h1 : (Blockchain.new 3).chain.length = 1 := rfl
      omega)
    (by unfold allBlocksValid; decide)

/-- C4: the freshness window of `submitStar`.  With the parsed message
timestamp `t`: when `now - t ≥ 300` the call rejects with the expiry
message, leaves the state untouched, and its result does not depend on the
signature verifier at all (it is never invoked); when `now - t ≤ 299` and
the signature verifies, the call succeeds, resolving with the sealed
`\x7bowner, star\x7d` block appended to the chain; when `now - t ≤ 299` and
the signature fails, the call rejects with the distinct
signature-invalid message. -/
theorem submitStar_freshness_window (now : Nat) (s : Blockchain)
    (address message signature : String) (star : JVal)
    (verify verify2 : String → String → String → Bool) (t : Int)
    (ht : ((splitOnChar ':' message)[1]?).bind parseIntJS = some t) :
    ((now : Int) - t ≥ 300 →
      submitStar now s address message signature star verify
          = (s, .error "Please submit a star within 5 minutes of the signature ownership verification.")
        ∧ submitStar now s address message signature star verify
          = submitStar now s address message signature star verify2)
    ∧ ((now : Int) - t ≤ 299 → verify message address signature = true →
        (submitStar now s address message signature star verify).2
            = .ok (sealBlock now s (Block.new (.jobj [("owner", .jstr address), ("star", star)])))
          ∧ (submitStar now s address message signature star verify).1.chain
            = s.chain
                ++ [sealBlock now s (Block.new (.jobj [("owner", .jstr address), ("star", star)]))])
    ∧ ((now : Int) - t ≤ 299 → verify message address signature = false →
        submitStar now s address message signature star verify
          = (s, .error "The Message is not Verified"))
    ∧ ("The Message is not Verified" : String)
        ≠ "Please submit a star within 5 minutes of the signature ownership verification." := by
  refine ⟨?_, ?_, ?_, by decide⟩
  · intro hexp
    have hc : ¬ ((now : Int) - t < 300) := by omega
    rw [submitStar_parsed now s address message signature star verify t ht, if_neg hc]
    rw [submitStar_parsed now s address message signature star verify2 t ht, if_neg hc]
    exact ⟨rfl, rfl⟩
  · intro hfr hv
    have hc : (now : Int) - t < 300 := by omega
    rw [submitStar_parsed now s address message signature star verify t ht, if_pos hc, if_pos hv]
    refine ⟨rfl, ?_⟩
    rw [_addBlock_fst]
  · intro hfr hv
    have hc : (now : Int) - t < 300 := by omega
    rw [submitStar_parsed now s address message signature star verify t ht, if_pos hc, if_neg ?hn]
    case hn => simp [hv]

/-- Witness for C4 at message `"a:1000:starRegistry"`: elapsed 300 rejects
as expired, elapsed 299 succeeds with a valid signature and rejects with the
signature message on an invalid one. -/
theorem submitStar_freshness_window_witness :
    (submitStar 1300 (Blockchain.new 5) "a" "a:1000:starRegistry" "sig" (.jstr "S")
        (fun _ _ _ => true)
      = (Blockchain.new 5,
         .error "Please submit a star within 5 minutes of the signature ownership verification."))
    ∧ ((submitStar 1299 (Blockchain.new 5) "a" "a:1000:starRegistry" "sig" (.jstr "S")
          (fun _ _ _ => true)).2
        = .ok (sealBlock 1299 (Blockchain.new 5)
            (Block.new (.jobj [("owner", .jstr "a"), ("star", .jstr "S")]))))
    ∧ (submitStar 1299 (Blockchain.new 5) "a" "a:1000:starRegistry" "sig" (.jstr "S")
        (fun _ _ _ => false)
      = (Blockchain.new 5, .error "The Message is not Verified")) :=
  ⟨((submitStar_freshness_window 1300 (Blockchain.new 5) "a" "a:1000:starRegistry" "sig"
      (.jstr "S") (fun _ _ _ => true) (fun _ _ _ => true) 1000 rfl).1 (by decide)).1,
   ((submitStar_freshness_window 1299 (Blockchain.new 5) "a" "a:1000:starRegistry" "sig"
      (.jstr "S") (fun _ _ _ => true) (fun _ _ _ => true) 1000 rfl).2.1 (by decide) rfl).1,
   (submitStar_freshness_window 1299 (Blockchain.new 5) "a" "a:1000:starRegistry" "sig"
      (.jstr "S") (fun _ _ _ => false) (fun _ _ _ => false) 1000 rfl).2.2.1 (by decide) rfl⟩

/-- C5 counterexample: on the concrete chain holding one star block owned by
`"A"` with star payload `"S"`, the query returns the whole decoded body
(owner and star), not the bare `star` field that the claim promises. -/
theorem getStars_returns_whole_bodies :
    getStarsByWalletAddress badChain "A"
        = [JVal.jobj [("owner", .jstr "A"), ("star", .jstr "S")]]
    ∧ getStarsClaim badChain "A" = [JVal.jstr "S"]
    ∧ ([JVal.jobj [("owner", .jstr "A"), ("star", .jstr "S")]] : List JVal)
        ≠ [JVal.jstr "S"] :=
  ⟨rfl, rfl, by simp⟩

/-- C5 as amended: the query scans the chain in ascending order and returns
the full decoded body of exactly the blocks whose decoded `owner` equals
the address, in chain order; blocks without a matching string `owner` field
(the genesis block in particular) are silently skipped, and an address that
never submitted yields the empty sequence. -/
theorem getStars_matching_bodies_in_order :
    (∀ (chain : List Block) (address : String),
        getStarsByWalletAddress chain address = getStarsBodiesSpec chain address)
    ∧ (∀ (chain : List Block) (address : String),
        (∀ b ∈ chain, jvalStrField b.body "owner" ≠ some address) →
        getStarsByWalletAddress chain address = []) := by
  have hmain : ∀ (chain : List Block) (address : String),
      getStarsByWalletAddress chain address = getStarsBodiesSpec chain address := by
    intro chain address
    unfold getStarsByWalletAddress
    rw [getStars_foldl]
    simp
  refine ⟨hmain, ?_⟩
  intro chain address hnone
  rw [hmain]
  unfold getStarsBodiesSpec
  rw [List.filterMap_eq_nil_iff]
  intro b hb
  simp [Block.getBData, hnone b hb]

/-- Witness for C5 (amended): the genesis-only chain, whose single body has
no `owner` field, yields the empty sequence. -/
theorem getStars_matching_bodies_in_order_witness :
    getStarsByWalletAddress [g5] "A" = [] :=
  getStars_matching_bodies_in_order.2 [g5] "A" (by decide)

/-- C6: every state reachable through the constructor, `_addBlock` on fresh
blocks and `submitStar` satisfies the linkage invariant — each block after
the first points at its predecessor's stored hash — and `validateChain` on
it reports no errors. -/
theorem reachable_chain_validates (s : Blockchain) (hs : Reachable s) :
    chainLinked s.chain ∧ validateChain s.chain = .ok none := by
  have h := ChainWF_of_reachable hs
  exact ⟨h.link, validateChain_ok_none_of_wf s.chain h.idx h.link h.valid⟩

/-- Witness for C6 at the freshly constructed chain. -/
theorem reachable_chain_validates_witness :
    chainLinked (Blockchain.new 0).chain
    ∧ validateChain (Blockchain.new 0).chain = .ok none :=
  reachable_chain_validates (Blockchain.new 0) (.init 0)

/-- C7: sealing a fresh block computes its hash once, at append time, over
the serialization of all its other fields (the `hash` slot still `null` at
that moment), so the sealed block's stored hash equals the hash recomputed
from its current header and body with the `hash` field excluded — it passes
`validate()` — and `_addBlock` stores exactly that sealed block. -/
theorem sealed_block_hash_invariant (now : Nat) (s : Blockchain) (block : Block)
    (hb : block.hash = none) :
    (sealBlock now s block).validate = true
    ∧ (sealBlock now s block).hash
        = some (SHA256 (jsonStringify { sealBlock now s block with hash := none }))
    ∧ (_addBlock now s block).1.chain = s.chain ++ [sealBlock now s block] := by
  have h1 := sealBlock_validate now s block hb
  refine ⟨h1, ?_, ?_⟩
  · rw [Block.validate] at h1
    exact eq_of_beq h1
  · rw [_addBlock_fst]

/-- Witness for C7 at a concrete fresh genesis block. -/
theorem sealed_block_hash_invariant_witness :
    (sealBlock 1 { chain := [], height := -1 } (Block.new genesisBody)).validate = true
    ∧ (sealBlock 1 { chain := [], height := -1 } (Block.new genesisBody)).hash
        = some (SHA256 (jsonStringify
            { sealBlock 1 { chain := [], height := -1 } (Block.new genesisBody) with
                hash := none }))
    ∧ (_addBlock 1 { chain := [], height := -1 } (Block.new genesisBody)).1.chain
        = [] ++ [sealBlock 1 { chain := [], height := -1 } (Block.new genesisBody)] :=
  sealed_block_hash_invariant 1 { chain := [], height := -1 } (Block.new genesisBody) rfl

/-- C8: construction synthesizes exactly one genesis block before anything
else: the chain of a fresh `Blockchain` is a single hash-valid block of
height 0 with body `\x7bdata: "Genesis Block"\x7d` and no predecessor hash;
and `initializeChain` is a no-op whenever the height is not `-1`, so the
genesis append happens only on the empty chain, hence exactly once. -/
theorem genesis_initialization (now : Nat) :
    (∃ g : Block, (Blockchain.new now).chain = [g]
      ∧ g.height = 0
      ∧ g.body = .jobj [("data", .jstr "Genesis Block")]
      ∧ g.previousBlockHash = none
      ∧ g.validate = true)
    ∧ (∀ s : Blockchain, s.height ≠ -1 → initializeChain now s = s) := by
  constructor
  · refine ⟨sealBlock now { chain := [], height := -1 }
        (Block.new (.jobj [("data", .jstr "Genesis Block")])),
      ?_, rfl, rfl, rfl, sealBlock_validate _ _ _ rfl⟩
    rw [Blockchain_new_eq, _addBlock_fst]
    simp
  · intro s hne
    unfold initializeChain
    rw [if_neg hne]

/-- Witness for C8: `initializeChain` leaves a non-fresh state unchanged. -/
theorem genesis_initialization_witness :
    initializeChain 7 { chain := [], height := 0 } = { chain := [], height := 0 } :=
  (genesis_initialization 7).2 { chain := [], height := 0 } (by decide)

/-- C9: in every reachable state the denormalized `height` field equals
`chain.length - 1`, every stored block's `height` equals its index, and
`getBlockByHeight h` returns exactly the block stored at index `h` (and
`null` for `h` beyond the last height). -/
theorem reachable_height_invariants (s : Blockchain) (hs : Reachable s) :
    s.height = (s.chain.length : Int) - 1
    ∧ heightsIndexed s.chain
    ∧ (∀ h : Nat, getBlockByHeight s.chain h = s.chain[h]?)
    ∧ (∀ h : Nat, s.chain.length ≤ h → getBlockByHeight s.chain h = none) := by
  have hw := ChainWF_of_reachable hs
  have hk : ∀ j < s.chain.length, s.chain[j]?.map Block.height = some (0 + j) := by
    intro j hj
    simpa using hw.idx j hj
  have hget : ∀ h : Nat, getBlockByHeight s.chain h = s.chain[h]? := by
    intro h
    have hf := filter_height_head s.chain 0 h hk (Nat.zero_le _)
    rw [Nat.sub_zero] at hf
    exact hf
  refine ⟨hw.ht, hw.idx, hget, ?_⟩
  intro h hlen
  rw [hget h, List.getElem?_eq_none hlen]

/-- Witness for C9 at the freshly constructed chain. -/
theorem reachable_height_invariants_witness :
    (Blockchain.new 2).height = ((Blockchain.new 2).chain.length : Int) - 1
    ∧ heightsIndexed (Blockchain.new 2).chain :=
  ⟨(reachable_height_invariants (Blockchain.new 2) (.init 2)).1,
   (reachable_height_invariants (Blockchain.new 2) (.init 2)).2.1⟩

/-- C10: when the second colon-delimited field of the message does not parse
as an integer, `submitStar` rejects with the freshness/expiry message, does
not modify the chain, and its result does not depend on the signature
verifier at all (it is never invoked). -/
theorem submitStar_rejects_unparsable_timestamp (now : Nat) (s : Blockchain)
    (address message signature : String) (star : JVal)
    (verify verify2 : String → String → String → Bool)
    (hp : ((splitOnChar ':' message)[1]?).bind parseIntJS = none) :
    submitStar now s address message signature star verify
        = (s, .error "Please submit a star within 5 minutes of the signature ownership verification.")
    ∧ submitStar now s address message signature star verify
        = submitStar now s address message signature star verify2 := by
  rw [submitStar_unparsed now s address message signature star verify hp,
    submitStar_unparsed now s address message signature star verify2 hp]
  exact ⟨rfl, rfl⟩

/-- Witness for C10 at the colon-free message `"abc"` (no second field). -/
theorem submitStar_rejects_unparsable_timestamp_witness :
    submitStar 50 (Blockchain.new 5) "a" "abc" "sig" (.jstr "S") (fun _ _ _ => true)
      = (Blockchain.new 5,
         .error "Please submit a star within 5 minutes of the signature ownership verification.") :=
  (submitStar_rejects_unparsable_timestamp 50 (Blockchain.new 5) "a" "abc" "sig" (.jstr "S")
    (fun _ _ _ => true) (fun _ _ _ => true) rfl).1
